import Mathlib

/-!
# Verification of the AcademiaX vector-search layer

Shallow embedding of `backend/utils/vector_db.py`, the `VectorEmbedding` /
`Paper` rows of `backend/models/database.py`, and the paper-import route of
`backend/routers/papers.py`.

Modelling conventions:
* machine floats are modelled as exact rationals (`ℚ`); the claims settled
  here are about ordering, filtering and data flow, not rounding;
* a SQLAlchemy session is modelled as an explicit `DB` record of row lists;
  a query without `ORDER BY` returns rows in table order, joins are nested
  loops preserving the outer table's order;
* numpy operations that raise (`np.stack` on ragged input, `@` on a
  dimension mismatch) are modelled in the `Except String` monad;
* the sentence-transformer model (`embed_text`) is an external library and
  is passed in as a function parameter.
-/

namespace AcademiaX

/-- Row of the `papers` table (`backend/models/database.py`, fields the
search layer reads: `id`, `external_id`, `source`, `title`, `authors`
(JSON-encoded list, nullable), `abstract` (nullable), `owner_id`). -/
structure Paper where
  id         : Nat
  externalId : Option String
  source     : Option String
  title      : String
  authors    : Option String
  abstract   : Option String
  ownerId    : Nat
deriving DecidableEq, Repr

instance : Inhabited Paper := ⟨⟨0, none, none, "", none, none, 0⟩⟩

/-- Row of the `vector_embeddings` table: `paper_id` (unique), `vector`
(stored as text, modelled here already parsed to the list of floats it
encodes), `model_name`. -/
structure VectorEmbedding where
  paperId   : Nat
  vector    : List ℚ
  modelName : String
deriving DecidableEq, Repr

/-- Row of the `workspace_papers` join table. -/
structure WorkspacePaper where
  workspaceId : Nat
  paperId     : Nat
deriving DecidableEq, Repr

/-- Row of the `workspaces` table (fields used by `_link_to_workspace`). -/
structure Workspace where
  id      : Nat
  ownerId : Nat
deriving DecidableEq, Repr

/-- The database session state: the tables the embedded routes touch, plus
the autoincrement counter for `papers.id`. -/
structure DB where
  papers          : List Paper
  embeddings      : List VectorEmbedding
  workspacePapers : List WorkspacePaper
  workspaces      : List Workspace
  nextPaperId     : Nat
deriving DecidableEq, Repr

/-- `MODEL_NAME` constant of `vector_db.py`. -/
def MODEL_NAME : String := "all-MiniLM-L6-v2"

instance {ε α : Type} [DecidableEq ε] [DecidableEq α] : DecidableEq (Except ε α) := fun a b =>
  match a, b with
  | .error e, .error f =>
    if h : e = f then .isTrue (by rw [h]) else .isFalse (by intro hh; injection hh; exact h ‹_›)
  | .ok x, .ok y =>
    if h : x = y then .isTrue (by rw [h]) else .isFalse (by intro hh; injection hh; exact h ‹_›)
  | .error _, .ok _ => .isFalse (by intro hh; exact Except.noConfusion hh)
  | .ok _, .error _ => .isFalse (by intro hh; exact Except.noConfusion hh)

/-! ## JSON helpers

`_paper_to_text` runs `json.loads(paper.authors)` followed by
`"Authors: " + ", ".join(authors)` inside one `try` whose `except` appends
the raw string.  `jsonLoadsAuthors` below models that composite step: it
returns `some items` exactly when `json.loads` succeeds *and* the join
accepts the decoded value, and `none` when either raises (parse error, or
`join` over a non-iterable / non-string-element value).  The join accepts
a decoded list of strings (the only shape this repo ever stores — the
paper-import route writes `json.dumps(list_of_strings)`, with `ensure_ascii`
escaping, so `\uXXXX` and the short escapes must decode), and degenerately
a decoded `str` (joined character-wise) or `dict` (joined over its keys).
Known deliberate gaps, all unreachable from `json.dumps` output: lone
surrogates (not representable as Lean `Char`), malformed numbers inside
object *values* (over-accepted by the skipper), and nesting deeper than
the generous fuel bound. -/

/-- JSON insignificant whitespace (`json.loads` accepts exactly these). -/
def isJsonWs (c : Char) : Bool := c = ' ' ∨ c = '\t' ∨ c = '\n' ∨ c = '\r'

/-- Drop leading JSON whitespace. -/
def skipWs (cs : List Char) : List Char := cs.dropWhile isJsonWs

/-- Value of one hex digit of a `\uXXXX` escape. -/
def hexVal (c : Char) : Option Nat :=
  if '0' ≤ c ∧ c ≤ '9' then some (c.toNat - '0'.toNat)
  else if 'a' ≤ c ∧ c ≤ 'f' then some (c.toNat - 'a'.toNat + 10)
  else if 'A' ≤ c ∧ c ≤ 'F' then some (c.toNat - 'A'.toNat + 10)
  else none

/-- Decode the four hex digits of a `\uXXXX` escape. -/
def hex4 : List Char → Option (Nat × List Char)
  | a :: b :: c :: d :: rest =>
    match hexVal a, hexVal b, hexVal c, hexVal d with
    | some x, some y, some z, some w => some (((x * 16 + y) * 16 + z) * 16 + w, rest)
    | _, _, _, _ => none
  | _ => none

/-- Decoded character of a single-letter JSON escape. -/
def escChar (e : Char) : Option Char :=
  if e = '"' then some '"'
  else if e = '\\' then some '\\'
  else if e = '/' then some '/'
  else if e = 'b' then some (Char.ofNat 8)
  else if e = 'f' then some (Char.ofNat 12)
  else if e = 'n' then some '\n'
  else if e = 'r' then some '\r'
  else if e = 't' then some '\t'
  else none

/-- Consume the body of a JSON string after the opening quote up to the
closing quote, decoding escape sequences as `json.loads` does: the short
escapes, `\uXXXX` for BMP code points, and surrogate pairs for
supplementary ones.  Unescaped control characters are rejected (`strict`
mode), as are lone surrogates (not representable as a Lean `Char`).
Returns the decoded characters and the rest of the input. -/
def jsonTakeString : Nat → List Char → Option (List Char × List Char)
  | 0, _ => none
  | _, [] => none
  | fuel + 1, c :: rest =>
    if c = '"' then some ([], rest)
    else if c = '\\' then
      match rest with
      | [] => none
      | e :: rest2 =>
        if e = 'u' then
          match hex4 rest2 with
          | none => none
          | some (n, rest3) =>
            if 0xD800 ≤ n ∧ n ≤ 0xDBFF then
              match rest3 with
              | '\\' :: 'u' :: rest4 =>
                match hex4 rest4 with
                | some (m, rest5) =>
                  if 0xDC00 ≤ m ∧ m ≤ 0xDFFF then
                    match jsonTakeString fuel rest5 with
                    | some (s, r) =>
                      some (Char.ofNat (0x10000 + (n - 0xD800) * 0x400 + (m - 0xDC00)) :: s, r)
                    | none => none
                  else none
                | none => none
              | _ => none
            else if 0xDC00 ≤ n ∧ n ≤ 0xDFFF then none
            else
              match jsonTakeString fuel rest3 with
              | some (s, r) => some (Char.ofNat n :: s, r)
              | none => none
        else
          match escChar e with
          | some ec =>
            match jsonTakeString fuel rest2 with
            | some (s, r) => some (ec :: s, r)
            | none => none
          | none => none
    else if c.toNat < 0x20 then none
    else
      match jsonTakeString fuel rest with
      | some (s, r) => some (c :: s, r)
      | none => none

/-- Characters a JSON number may contain (loose: only used to skip the
values of object members, a shape `json.dumps` never stores here). -/
def isNumChar (c : Char) : Bool :=
  c.isDigit ∨ c = '-' ∨ c = '+' ∨ c = '.' ∨ c = 'e' ∨ c = 'E'

/-- Skip one JSON value (`mode = 0`), the items of an array after its
first character (`mode = 1`), or the members of an object after its first
character (`mode = 2`); returns the remaining input.  Only reached
through object values, which `json.dumps` never stores in this column. -/
def jsonSkipAux : Nat → Nat → List Char → Option (List Char)
  | 0, _, _ => none
  | fuel + 1, mode, cs =>
    if mode = 1 then
      match jsonSkipAux fuel 0 cs with
      | none => none
      | some r =>
        match skipWs r with
        | ',' :: r2 => jsonSkipAux fuel 1 r2
        | ']' :: r2 => some r2
        | _ => none
    else if mode = 2 then
      match skipWs cs with
      | '"' :: r =>
        match jsonTakeString (r.length + 1) r with
        | none => none
        | some (_, r2) =>
          match skipWs r2 with
          | ':' :: r3 =>
            match jsonSkipAux fuel 0 r3 with
            | none => none
            | some r4 =>
              match skipWs r4 with
              | ',' :: r5 => jsonSkipAux fuel 2 r5
              | '\x7d' :: r5 => some r5
              | _ => none
          | _ => none
      | _ => none
    else
      match skipWs cs with
      | '"' :: rest =>
        match jsonTakeString (rest.length + 1) rest with
        | some (_, r) => some r
        | none => none
      | '[' :: rest =>
        match skipWs rest with
        | ']' :: r => some r
        | _ => jsonSkipAux fuel 1 rest
      | '\x7b' :: rest =>
        match skipWs rest with
        | '\x7d' :: r => some r
        | _ => jsonSkipAux fuel 2 rest
      | 't' :: 'r' :: 'u' :: 'e' :: r => some r
      | 'f' :: 'a' :: 'l' :: 's' :: 'e' :: r => some r
      | 'n' :: 'u' :: 'l' :: 'l' :: r => some r
      | 'N' :: 'a' :: 'N' :: r => some r
      | 'I' :: 'n' :: 'f' :: 'i' :: 'n' :: 'i' :: 't' :: 'y' :: r => some r
      | '-' :: 'I' :: 'n' :: 'f' :: 'i' :: 'n' :: 'i' :: 't' :: 'y' :: r => some r
      | c :: rest =>
        if c = '-' ∨ c.isDigit then some ((c :: rest).dropWhile isNumChar) else none
      | [] => none

/-- Parse the comma-separated string items of a JSON array after the
opening bracket, requiring every element to be a string (a non-string
element makes the subsequent `", ".join` raise, same outcome as a parse
failure), the closing bracket, and end of input. -/
def jsonItemsAux : Nat → List Char → Option (List String)
  | 0, _ => none
  | fuel + 1, cs =>
    match skipWs cs with
    | '"' :: rest =>
      match jsonTakeString (rest.length + 1) rest with
      | some (s, r) =>
        match skipWs r with
        | ',' :: r2 =>
          match jsonItemsAux fuel r2 with
          | some l => some (String.mk s :: l)
          | none => none
        | ']' :: r2 => if skipWs r2 = [] then some [String.mk s] else none
        | _ => none
      | none => none
    | _ => none

/-- Collect the (decoded) keys of a JSON object after the opening brace,
skipping the member values; returns the keys and the remaining input. -/
def jsonObjectKeys : Nat → List Char → Option (List String × List Char)
  | 0, _ => none
  | fuel + 1, cs =>
    match skipWs cs with
    | '"' :: r =>
      match jsonTakeString (r.length + 1) r with
      | none => none
      | some (k, r2) =>
        match skipWs r2 with
        | ':' :: r3 =>
          match jsonSkipAux (r3.length * 2 + 4) 0 r3 with
          | none => none
          | some r4 =>
            match skipWs r4 with
            | ',' :: r5 =>
              match jsonObjectKeys fuel r5 with
              | some (ks, r6) => some (String.mk k :: ks, r6)
              | none => none
            | '\x7d' :: r5 => some ([String.mk k], r5)
            | _ => none
        | _ => none
    | _ => none

/-- Iterating a Python `dict` yields each key once, at the position of its
first insertion. -/
def dedupKeys (keys : List String) : List String :=
  keys.foldl (fun acc k => if k ∈ acc then acc else acc ++ [k]) []

/-- Model of `", ".join(json.loads(s))` succeeding: `some items` when `s`
decodes to a value the join accepts — an array of strings (the items), a
string (its characters), or an object (its keys) — and `none` when
`json.loads` raises or the join does (numbers, booleans, `null`,
`Infinity`/`NaN`, arrays with non-string elements, malformed input). -/
def jsonLoadsAuthors (s : String) : Option (List String) :=
  match skipWs s.data with
  | '[' :: rest =>
    match skipWs rest with
    | ']' :: r2 => if skipWs r2 = [] then some [] else none
    | _ => jsonItemsAux (rest.length + 1) rest
  | '"' :: rest =>
    match jsonTakeString (rest.length + 1) rest with
    | some (chars, r) =>
      if skipWs r = [] then some (chars.map (fun c => String.mk [c])) else none
    | none => none
  | '\x7b' :: rest =>
    match skipWs rest with
    | '\x7d' :: r2 => if skipWs r2 = [] then some [] else none
    | _ =>
      match jsonObjectKeys (rest.length + 1) rest with
      | some (keys, r) => if skipWs r = [] then some (dedupKeys keys) else none
      | none => none
  | _ => none

/-- Model of Python `json.dumps` on a list of plain strings (default
separators: `", "` between items). -/
def jsonDumpsStringList (l : List String) : String :=
  "[" ++ String.intercalate ", " (l.map (fun s => "\x22" ++ s ++ "\x22")) ++ "]"

/-! ## `_paper_to_text` -/

/-- `_paper_to_text` (`vector_db.py`): parts start with `paper.title or ""`
(our `title` is non-nullable, and `or ""` is the identity on strings except
that it maps `""` to `""`); `paper.abstract` is appended when truthy;
`paper.authors`, when truthy, is JSON-decoded and rendered as
`"Authors: " + ", ".join(authors)`, with the raw string appended instead
when decoding (or joining) raises; parts are joined by single spaces. -/
def paperToText (p : Paper) : String :=
  let parts := [p.title]
  let parts := parts ++
    (match p.abstract with
     | some a => if a = "" then [] else [a]
     | none => [])
  let parts := parts ++
    (match p.authors with
     | some a =>
       if a = "" then []
       else
         match jsonLoadsAuthors a with
         | some l => ["Authors: " ++ String.intercalate ", " l]
         | none => [a]
     | none => [])
  String.intercalate " " parts

/-! ## numpy model -/

/-- Dot product of two vectors (`matrix @ q_vec`, one row). -/
def dot (v w : List ℚ) : ℚ := (List.zipWith (· * ·) v w).sum

/-- `np.stack` succeeds only on a list of equal-length vectors; on ragged
input it raises `ValueError`. -/
def npStackOk (vs : List (List ℚ)) : Bool :=
  vs.all (fun v => v.length = (vs.headD []).length)

/-- `np.argsort`'s ascending index sort, modelled as the stable insertion
of index `i` after every already-placed index of key ≤ its own (numpy's
ascending argsort keeps equal keys in index order on these inputs). -/
def insertAsc (key : Nat → ℚ) (i : Nat) : List Nat → List Nat
  | [] => [i]
  | j :: rest => if key i < key j then i :: j :: rest else j :: insertAsc key i rest

/-- `np.argsort(scores)`: the indices `0, …, n-1` sorted ascending by
score, equal scores keeping index order. -/
def argsortAsc (scores : List ℚ) : List Nat :=
  (List.range scores.length).foldl (fun acc i => insertAsc (fun k => scores.getD k 0) i acc) []

/-- `np.argsort(scores)[::-1]` — the descending ranking the three search
functions use. -/
def argsortDesc (scores : List ℚ) : List Nat :=
  (argsortAsc scores).reverse

/-! ## Candidate-row queries -/

/-- Rows of `semantic_search`'s query: `VectorEmbedding ⋈ Paper` on
`paper_id = id`, filtered to `Paper.owner_id == owner_id`. -/
def searchRows (db : DB) (ownerId : Nat) : List (VectorEmbedding × Paper) :=
  db.embeddings.flatMap (fun e =>
    (db.papers.filter (fun p => p.id = e.paperId ∧ p.ownerId = ownerId)).map (fun p => (e, p)))

/-- Rows of `workspace_semantic_search`'s query: additionally joined with
`WorkspacePaper` and filtered to the workspace. -/
def workspaceRows (db : DB) (workspaceId ownerId : Nat) : List (VectorEmbedding × Paper) :=
  db.embeddings.flatMap (fun e =>
    (db.papers.filter (fun p => p.id = e.paperId ∧ p.ownerId = ownerId)).flatMap (fun p =>
      (db.workspacePapers.filter
        (fun w => w.paperId = p.id ∧ w.workspaceId = workspaceId)).map (fun _ => (e, p))))

/-- Rows of `get_related_papers`' query: owner filter plus
`VectorEmbedding.paper_id != paper_id`. -/
def relatedRows (db : DB) (paperId ownerId : Nat) : List (VectorEmbedding × Paper) :=
  db.embeddings.flatMap (fun e =>
    if e.paperId ≠ paperId then
      (db.papers.filter (fun p => p.id = e.paperId ∧ p.ownerId = ownerId)).map (fun p => (e, p))
    else [])

/-! ## Ranking core -/

/-- The body of the final list comprehension of each search function: emit
`(papers[i], scores[i])`, subject to `scores[i] >= threshold` when a
threshold is present (`semantic_search`); the other two search functions
have no threshold and emit every taken entry. -/
def rankEmit (papers : List Paper) (scores : List ℚ) (threshold : Option ℚ)
    (i : Nat) : Option (Paper × ℚ) :=
  let s := scores.getD i 0
  match threshold with
  | some t => if t ≤ s then some (papers.getD i default, s) else none
  | none => some (papers.getD i default, s)

/-- The shared tail of the three search functions: stack the candidate
vectors (raising on ragged shapes), multiply by the query vector (raising
on a dimension mismatch), rank by `argsort(scores)[::-1]`, truncate to
`top_k`, and emit via `rankEmit`. -/
def rankCandidates (rows : List (VectorEmbedding × Paper)) (qvec : List ℚ)
    (topK : Nat) (threshold : Option ℚ) : Except String (List (Paper × ℚ)) :=
  let vecs := rows.map (fun r => r.1.vector)
  if ¬ npStackOk vecs then .error "ValueError: np.stack shape mismatch"
  else if ¬ vecs.all (fun v => v.length = qvec.length) then
    .error "ValueError: matmul dimension mismatch"
  else
    let papers := rows.map (fun r => r.2)
    let scores := vecs.map (fun v => dot v qvec)
    let ranked := argsortDesc scores
    .ok ((ranked.take topK).filterMap (rankEmit papers scores threshold))

/-- `semantic_search(db, query, owner_id, top_k=10, threshold=0.0)`:
cosine search over all papers owned by a user; `q_vec = embed_text(query)`
is taken as the argument `qvec`.  Returns `[]` on an empty candidate set,
otherwise filters the top-k to scores `>= threshold`. -/
def semanticSearch (db : DB) (qvec : List ℚ) (ownerId : Nat)
    (topK : Nat := 10) (threshold : ℚ := 0) : Except String (List (Paper × ℚ)) :=
  let rows := searchRows db ownerId
  if rows.isEmpty then .ok []
  else rankCandidates rows qvec topK (some threshold)

/-- `workspace_semantic_search(db, query, workspace_id, owner_id, top_k=5)`:
same ranking scoped to one workspace, no threshold filter. -/
def workspaceSemanticSearch (db : DB) (qvec : List ℚ) (workspaceId ownerId : Nat)
    (topK : Nat := 5) : Except String (List (Paper × ℚ)) :=
  let rows := workspaceRows db workspaceId ownerId
  if rows.isEmpty then .ok []
  else rankCandidates rows qvec topK none

/-- `get_related_papers(db, paper_id, owner_id, top_k=5)`: the source
paper's stored embedding is looked up first (`[]` when absent), its stored
vector is the query, and the candidate query excludes the source's
`paper_id`. -/
def getRelatedPapers (db : DB) (paperId ownerId : Nat)
    (topK : Nat := 5) : Except String (List (Paper × ℚ)) :=
  match db.embeddings.find? (fun e => e.paperId = paperId) with
  | none => .ok []
  | some src =>
    let rows := relatedRows db paperId ownerId
    if rows.isEmpty then .ok []
    else rankCandidates rows src.vector topK none

/-! ## `create_embedding` -/

/-- Mutating the row returned by `filter_by(paper_id=...).first()`: the
first row of the table with that `paper_id` gets the new vector and model
name in place. -/
def updateFirst (pid : Nat) (v : List ℚ) : List VectorEmbedding → List VectorEmbedding
  | [] => []
  | e :: rest =>
    if e.paperId = pid then { e with vector := v, modelName := MODEL_NAME } :: rest
    else e :: updateFirst pid v rest

/-- `create_embedding(db, paper)`: embed `_paper_to_text(paper)` (the
external sentence-transformer is the `embed` parameter and may fail),
then refresh the existing embedding row in place when one exists for
`paper.id`, else insert a new row. -/
def createEmbedding (embed : String → Except String (List ℚ)) (db : DB)
    (paper : Paper) : Except String (DB × VectorEmbedding) :=
  match embed (paperToText paper) with
  | .error e => .error e
  | .ok vector =>
    match db.embeddings.find? (fun e => e.paperId = paper.id) with
    | some _ =>
      .ok ({ db with embeddings := updateFirst paper.id vector db.embeddings },
           ⟨paper.id, vector, MODEL_NAME⟩)
    | none =>
      .ok ({ db with embeddings := db.embeddings ++ [⟨paper.id, vector, MODEL_NAME⟩] },
           ⟨paper.id, vector, MODEL_NAME⟩)

/-- Calling `create_embedding` once per element of `embeds` (each call may
see a different embedder output — "the latest vector" is the last one). -/
def createEmbeddingMany (embeds : List (String → Except String (List ℚ)))
    (db : DB) (paper : Paper) : Except String DB :=
  match embeds with
  | [] => .ok db
  | f :: rest =>
    match createEmbedding f db paper with
    | .ok (d, _) => createEmbeddingMany rest d paper
    | .error e => .error e

/-! ## `import_paper` route -/

/-- The fields of `PaperImport` this flow reads. -/
structure PaperImport where
  externalId  : Option String
  source      : Option String
  title       : String
  authors     : List String
  abstract    : Option String
  workspaceId : Option Nat
deriving Repr

/-- `_link_to_workspace`: 404 when the workspace is not owned by the user,
otherwise insert the `WorkspacePaper` link unless it already exists. -/
def linkToWorkspace (db : DB) (paperId workspaceId ownerId : Nat) : Except String DB :=
  match db.workspaces.find? (fun w => w.id = workspaceId ∧ w.ownerId = ownerId) with
  | none => .error "HTTPException 404: Workspace not found."
  | some _ =>
    match db.workspacePapers.find?
        (fun wp => wp.workspaceId = workspaceId ∧ wp.paperId = paperId) with
    | some _ => .ok db
    | none => .ok { db with workspacePapers := db.workspacePapers ++ [⟨workspaceId, paperId⟩] }

/-- `import_paper` (`routers/papers.py`): reuse an existing
(`external_id`, `source`, `owner_id`) duplicate, else insert the paper and
try `create_embedding`; an embedding failure is caught and logged, never
propagated.  `if data.workspace_id:` is Python truthiness: `None` and `0`
skip the link. -/
def importPaper (embed : String → Except String (List ℚ)) (db : DB)
    (data : PaperImport) (userId : Nat) : Except String (DB × Paper) :=
  let dup := db.papers.find? (fun p =>
    p.externalId = data.externalId ∧ p.source = data.source ∧ p.ownerId = userId)
  let (db1, paper) :=
    match dup with
    | some existing => (db, existing)
    | none =>
      let paper : Paper :=
        { id := db.nextPaperId
          externalId := data.externalId
          source := data.source
          title := data.title
          authors := some (jsonDumpsStringList data.authors)
          abstract := data.abstract
          ownerId := userId }
      let dbAdded := { db with papers := db.papers ++ [paper],
                               nextPaperId := db.nextPaperId + 1 }
      let dbEmbedded :=
        match createEmbedding embed dbAdded paper with
        | .ok (d, _) => d
        | .error _ => dbAdded
      (dbEmbedded, paper)
  match data.workspaceId with
  | some w =>
    if w ≠ 0 then
      match linkToWorkspace db1 paper.id w userId with
      | .ok db2 => .ok (db2, paper)
      | .error e => .error e
    else .ok (db1, paper)
  | none => .ok (db1, paper)

/-! ## Lemmas about `argsort` -/

theorem mem_insertAsc {key : Nat → ℚ} {i : Nat} :
    ∀ {l : List Nat} {x : Nat}, x ∈ insertAsc key i l ↔ x = i ∨ x ∈ l := by
  intro l
  induction l with
  | nil => intro x; simp [insertAsc]
  | cons j rest ih =>
    intro x
    by_cases h : key i < key j
    · simp [insertAsc, h]
    · simp only [insertAsc, if_neg h, List.mem_cons, ih]
      tauto

theorem insertAsc_length {key : Nat → ℚ} {i : Nat} :
    ∀ l : List Nat, (insertAsc key i l).length = l.length + 1 := by
  intro l
  induction l with
  | nil => rfl
  | cons j rest ih =>
    by_cases h : key i < key j <;> simp [insertAsc, h, ih]

theorem mem_foldl_insertAsc {key : Nat → ℚ} :
    ∀ (todo acc : List Nat) (x : Nat),
      x ∈ todo.foldl (fun a i => insertAsc key i a) acc → x ∈ todo ∨ x ∈ acc := by
  intro todo
  induction todo with
  | nil => intro acc x hx; exact Or.inr hx
  | cons i rest ih =>
    intro acc x hx
    rw [List.foldl_cons] at hx
    rcases ih _ x hx with hr | hacc
    · exact Or.inl (List.mem_cons_of_mem i hr)
    · rcases mem_insertAsc.mp hacc with rfl | hacc'
      · exact Or.inl (List.mem_cons_self x rest)
      · exact Or.inr hacc'

theorem length_foldl_insertAsc {key : Nat → ℚ} :
    ∀ (todo acc : List Nat),
      (todo.foldl (fun a i => insertAsc key i a) acc).length = todo.length + acc.length := by
  intro todo
  induction todo with
  | nil => intro acc; simp
  | cons i rest ih =>
    intro acc
    rw [List.foldl_cons, ih, insertAsc_length, List.length_cons]
    omega

theorem mem_argsortDesc_lt {scores : List ℚ} {x : Nat}
    (hx : x ∈ argsortDesc scores) : x < scores.length := by
  rw [argsortDesc, List.mem_reverse] at hx
  rcases mem_foldl_insertAsc _ _ _ hx with hr | habs
  · exact List.mem_range.mp hr
  · cases habs

theorem argsortDesc_length (scores : List ℚ) :
    (argsortDesc scores).length = scores.length := by
  rw [argsortDesc, List.length_reverse, argsortAsc, length_foldl_insertAsc]
  simp

/-! ## Lemmas about `rankCandidates` -/

theorem filterMap_length_of_isSome {α β : Type} (l : List α) (f : α → Option β)
    (h : ∀ a ∈ l, (f a).isSome) : (l.filterMap f).length = l.length := by
  induction l with
  | nil => rfl
  | cons a rest ih =>
    have ha := h a (List.mem_cons_self a rest)
    rcases Option.isSome_iff_exists.mp ha with ⟨b, hb⟩
    rw [List.filterMap_cons, hb, List.length_cons,
      ih (fun x hx => h x (List.mem_cons_of_mem a hx)), List.length_cons]

theorem rankEmit_eq_some {papers : List Paper} {scores : List ℚ}
    {threshold : Option ℚ} {i : Nat} {b : Paper × ℚ}
    (h : rankEmit papers scores threshold i = some b) :
    b = (papers.getD i default, scores.getD i 0) := by
  cases threshold with
  | none =>
    simp only [rankEmit, Option.some.injEq] at h
    exact h.symm
  | some t =>
    simp only [rankEmit] at h
    split at h
    · rw [Option.some.injEq] at h
      exact h.symm
    · cases h

theorem rankCandidates_mem {rows : List (VectorEmbedding × Paper)}
    {qvec : List ℚ} {topK : Nat} {threshold : Option ℚ} {res : List (Paper × ℚ)}
    (h : rankCandidates rows qvec topK threshold = .ok res) :
    ∀ pr ∈ res, ∃ r ∈ rows, pr.1 = r.2 ∧ pr.2 = dot r.1.vector qvec := by
  rw [rankCandidates] at h
  split at h
  · cases h
  · split at h
    · cases h
    · rw [Except.ok.injEq] at h
      subst h
      intro pr hpr
      rcases List.mem_filterMap.mp hpr with ⟨i, hi, hemit⟩
      have hi' : i ∈ argsortDesc ((rows.map (fun r => r.1.vector)).map (fun v => dot v qvec)) :=
        List.take_subset topK _ hi
      have hilt := mem_argsortDesc_lt hi'
      rw [List.length_map, List.length_map] at hilt
      have hb := rankEmit_eq_some hemit
      refine ⟨rows[i], List.getElem_mem hilt, ?_, ?_⟩
      · rw [hb]
        show (rows.map (fun r => r.2)).getD i default = rows[i].2
        rw [List.getD_eq_getElem _ _ (by simpa using hilt), List.getElem_map]
      · rw [hb]
        show ((rows.map (fun r => r.1.vector)).map (fun v => dot v qvec)).getD i 0 =
          dot rows[i].1.vector qvec
        rw [List.getD_eq_getElem _ _ (by simpa using hilt), List.getElem_map, List.getElem_map]

theorem rankCandidates_full {rows : List (VectorEmbedding × Paper)}
    {qvec : List ℚ} {topK : Nat} {t : ℚ}
    (hne : rows ≠ [])
    (hlen : ∀ r ∈ rows, r.1.vector.length = qvec.length)
    (hth : ∀ r ∈ rows, t ≤ dot r.1.vector qvec)
    (hk : rows.length ≤ topK) :
    ∃ res, rankCandidates rows qvec topK (some t) = .ok res ∧ res.length = rows.length := by
  have hstack : npStackOk (rows.map (fun r => r.1.vector)) = true := by
    rcases List.exists_cons_of_ne_nil hne with ⟨r0, rest, hr⟩
    subst hr
    simp only [npStackOk, List.all_eq_true, decide_eq_true_eq]
    intro v hv
    rcases List.mem_map.mp hv with ⟨r, hrmem, rfl⟩
    rw [hlen r hrmem]
    simp [hlen r0 (List.mem_cons_self r0 rest)]
  have hall : (rows.map (fun r => r.1.vector)).all (fun v => v.length = qvec.length) = true := by
    simp only [List.all_eq_true, decide_eq_true_eq]
    intro v hv
    rcases List.mem_map.mp hv with ⟨r, hrmem, rfl⟩
    exact hlen r hrmem
  rw [rankCandidates]
  rw [if_neg (by simp [hstack]), if_neg (by simp [hall])]
  refine ⟨_, rfl, ?_⟩
  set scores := (rows.map (fun r => r.1.vector)).map (fun v => dot v qvec) with hs
  have hslen : scores.length = rows.length := by simp [hs]
  have htake : (argsortDesc scores).take topK = argsortDesc scores :=
    List.take_of_length_le (by rw [argsortDesc_length, hslen]; exact hk)
  rw [htake]
  rw [filterMap_length_of_isSome, argsortDesc_length, hslen]
  intro i hi
  have hilt : i < scores.length := mem_argsortDesc_lt hi
  have hsc : t ≤ scores.getD i 0 := by
    rw [List.getD_eq_getElem _ _ hilt]
    have : scores[i] ∈ scores := List.getElem_mem hilt
    rcases List.mem_map.mp this with ⟨v, hv, hveq⟩
    rcases List.mem_map.mp hv with ⟨r, hrmem, rfl⟩
    rw [← hveq]
    exact hth r hrmem
  simp only [rankEmit]
  rw [if_pos hsc]
  rfl

theorem mem_relatedRows {db : DB} {pid uid : Nat} {e : VectorEmbedding} {p : Paper}
    (h : (e, p) ∈ relatedRows db pid uid) :
    p.id = e.paperId ∧ p.ownerId = uid ∧ e.paperId ≠ pid := by
  simp only [relatedRows, List.mem_flatMap] at h
  rcases h with ⟨e', _, hmem⟩
  by_cases hne : e'.paperId ≠ pid
  · rw [if_pos hne] at hmem
    rcases List.mem_map.mp hmem with ⟨p', hp', heq⟩
    rw [Prod.mk.injEq] at heq
    rcases heq with ⟨rfl, rfl⟩
    rcases List.mem_filter.mp hp' with ⟨_, hcond⟩
    rw [decide_eq_true_eq] at hcond
    exact ⟨hcond.1, hcond.2, hne⟩
  · rw [if_neg hne] at hmem
    cases hmem

/-! ## Lemmas about `create_embedding` -/

theorem countP_updateFirst (pid : Nat) (v : List ℚ) :
    ∀ l : List VectorEmbedding,
      (updateFirst pid v l).countP (fun e => e.paperId = pid) =
        l.countP (fun e => e.paperId = pid) := by
  intro l
  induction l with
  | nil => rfl
  | cons e rest ih =>
    by_cases h : e.paperId = pid
    · rw [updateFirst, if_pos h]
      simp [List.countP_cons, h]
    · rw [updateFirst, if_neg h]
      simp [List.countP_cons, h, ih]

theorem find?_updateFirst {pid : Nat} {v : List ℚ} :
    ∀ {l : List VectorEmbedding} {e0 : VectorEmbedding},
      l.find? (fun e => e.paperId = pid) = some e0 →
      (updateFirst pid v l).find? (fun e => e.paperId = pid) =
        some ⟨pid, v, MODEL_NAME⟩ := by
  intro l
  induction l with
  | nil => intro e0 h; cases h
  | cons e rest ih =>
    intro e0 h
    by_cases hd : e.paperId = pid
    · rw [updateFirst, if_pos hd]
      rw [List.find?_cons_of_pos _ (by simp [hd])]
      cases e
      simp only at hd
      simp [hd]
    · rw [updateFirst, if_neg hd]
      rw [List.find?_cons_of_neg _ (by simp [hd])] at h ⊢
      exact ih h

theorem createEmbedding_step {f : String → Except String (List ℚ)} {db : DB}
    {p : Paper} {v : List ℚ}
    (hf : f (paperToText p) = .ok v)
    (hinv : db.embeddings.countP (fun e => e.paperId = p.id) ≤ 1) :
    ∃ db' row, createEmbedding f db p = .ok (db', row) ∧
      db'.embeddings.countP (fun e => e.paperId = p.id) = 1 ∧
      db'.embeddings.find? (fun e => e.paperId = p.id) =
        some ⟨p.id, v, MODEL_NAME⟩ := by
  rw [createEmbedding, hf]
  cases hfind : db.embeddings.find? (fun e => e.paperId = p.id) with
  | some e0 =>
    refine ⟨_, _, rfl, ?_, ?_⟩
    · show (updateFirst p.id v db.embeddings).countP (fun e => e.paperId = p.id) = 1
      rw [countP_updateFirst]
      have hmem := List.mem_of_find?_eq_some hfind
      have hpa := List.find?_some hfind
      have hpos : 0 < db.embeddings.countP (fun e => e.paperId = p.id) := by
        rw [List.countP_pos_iff]
        exact ⟨e0, hmem, hpa⟩
      omega
    · exact find?_updateFirst hfind
  | none =>
    refine ⟨_, _, rfl, ?_, ?_⟩
    · show (db.embeddings ++ [(⟨p.id, v, MODEL_NAME⟩ : VectorEmbedding)]).countP
        (fun e => e.paperId = p.id) = 1
      rw [List.countP_append]
      have hzero : db.embeddings.countP (fun e => e.paperId = p.id) = 0 := by
        rw [List.countP_eq_zero]
        exact fun a ha => List.find?_eq_none.mp hfind a ha
      rw [hzero]
      simp
    · show (db.embeddings ++ [(⟨p.id, v, MODEL_NAME⟩ : VectorEmbedding)]).find?
        (fun e => e.paperId = p.id) = some ⟨p.id, v, MODEL_NAME⟩
      rw [List.find?_append, hfind]
      simp

/-! ## Spec-side definitions -/

/-- Spec rendering of an authors value, as amended: the
`"Authors: " + ", ".join(json.loads(value))` line when the stored value
decodes (escape sequences included) to a JSON value the join accepts — an
array of strings in every reachable case — and the raw stored string when
decoding or joining raises. -/
def renderAuthors (raw : String) : String :=
  match jsonLoadsAuthors raw with
  | some names => "Authors: " ++ String.intercalate ", " names
  | none => raw

/-- The amended text-composition rule, written from the spec side: title,
then the abstract when present and non-empty, then the rendered authors
part when an authors value is present and non-empty, joined by single
spaces in that fixed order. -/
def composedTextSpec (p : Paper) : String :=
  String.intercalate " "
    ([p.title]
      ++ (match p.abstract with
          | some a => if a = "" then [] else [a]
          | none => [])
      ++ (match p.authors with
          | some a => if a = "" then [] else [renderAuthors a]
          | none => []))

/-! ## Concrete test fixtures -/

/-- A paper with only an id, owner and title set. -/
def mkPaper (n owner : Nat) (t : String) : Paper :=
  ⟨n, none, none, t, none, none, owner⟩

/-- A user's library: three owned and embedded papers whose similarity to
the query `[1]` is negative for all three. -/
def cdbNeg : DB :=
  { papers := [mkPaper 1 7 "a", mkPaper 2 7 "b", mkPaper 3 7 "c"],
    embeddings := [⟨1, [-1], MODEL_NAME⟩, ⟨2, [-(1/2)], MODEL_NAME⟩, ⟨3, [-2], MODEL_NAME⟩],
    workspacePapers := [], workspaces := [], nextPaperId := 4 }

/-- Three owned and embedded papers with nonnegative scores against `[1]`. -/
def wdbPos : DB :=
  { papers := [mkPaper 1 7 "a", mkPaper 2 7 "b", mkPaper 3 7 "c"],
    embeddings := [⟨1, [1], MODEL_NAME⟩, ⟨2, [1/2], MODEL_NAME⟩, ⟨3, [2], MODEL_NAME⟩],
    workspacePapers := [], workspaces := [], nextPaperId := 4 }

def paperA : Paper := mkPaper 1 7 "a"
def paperB : Paper := mkPaper 2 7 "b"

/-- Two owned, embedded papers for the related-papers witness. -/
def wdbRelated : DB :=
  { papers := [paperA, paperB],
    embeddings := [⟨1, [1, 0], MODEL_NAME⟩, ⟨2, [0, 1], MODEL_NAME⟩],
    workspacePapers := [], workspaces := [], nextPaperId := 3 }

/-- One owned paper with no embedding row. -/
def wdbNoEmb : DB :=
  { papers := [paperA], embeddings := [],
    workspacePapers := [], workspaces := [], nextPaperId := 2 }

/-- The empty database. -/
def emptyDB : DB :=
  { papers := [], embeddings := [], workspacePapers := [], workspaces := [], nextPaperId := 1 }

/-- A paper whose `authors` column holds a plain, non-JSON string. -/
def paperRawAuthors : Paper :=
  { id := 1, externalId := none, source := none, title := "T",
    authors := some "John Smith, Jane Doe", abstract := some "A", ownerId := 7 }

/-- A paper whose `authors` column holds what the import route actually
stores for a non-ASCII author name: `json.dumps(['José'])`, which is
`'["José"]'` under `ensure_ascii`. -/
def paperEscAuthors : Paper :=
  { id := 2, externalId := none, source := none, title := "T",
    authors := some "[\"Jos\\u00e9\"]", abstract := none, ownerId := 7 }

/-- The `ensure_ascii` output of `json.dumps` for a non-ASCII author name
decodes to the name, as `json.loads` does. -/
theorem jsonLoadsAuthors_unicode_escape :
    jsonLoadsAuthors "[\"Jos\\u00e9\"]" = some ["José"] := by decide

/-- On such a stored value `_paper_to_text` renders the decoded
`Authors:` line, not the raw JSON text. -/
theorem paperToText_unicode_escape :
    paperToText paperEscAuthors = "T Authors: José" := by decide

/-- C6, counterexample: a paper whose `authors` column holds a plain
non-JSON string has that raw string appended to the embedded text — the
authors value is present, yet the output contains no `"Authors:"`
rendering at all, contradicting the claim that the authors, when present,
are rendered as the `"Authors: a, b, c"` line and in no other way. -/
theorem claim_C6_counterexample :
    paperRawAuthors.authors.isSome = true ∧
    paperToText paperRawAuthors = "T A John Smith, Jane Doe" ∧
    paperToText paperRawAuthors ≠ "T A Authors: John Smith, Jane Doe" ∧
    ¬ ("Authors:".data <:+: (paperToText paperRawAuthors).data) := by
  decide

/-- C6, amended: the text embedded for a paper is the title, then the
abstract when present and non-empty, then — when a non-empty authors
value is present — the rendered `"Authors: a, b, c"` line built from the
JSON-decoded authors (escape sequences decoded) when
`", ".join(json.loads(value))` succeeds, and the raw stored string when
decoding or joining raises, joined by single spaces in that fixed
order. -/
theorem claim_C6_text_composition (p : Paper) : paperToText p = composedTextSpec p := by
  rcases p with ⟨pid, ex, src, title, authors, abstract, owner⟩
  simp only [paperToText, composedTextSpec, renderAuthors]
  cases authors with
  | none => rfl
  | some a =>
    cases abstract with
    | none =>
      by_cases ha : a = ""
      · simp [ha]
      · cases hj : jsonLoadsAuthors a <;> simp [ha, hj]
    | some b =>
      by_cases ha : a = ""
      · simp [ha]
      · cases hj : jsonLoadsAuthors a <;> simp [ha, hj]

/-! ## Claim C8 -/

/-- C8: when the candidate set is empty (no embedding/paper row matches
the ownership or workspace filter), each of the three search operations
returns the empty list rather than an error. -/
theorem claim_C8_empty_candidates :
    (∀ (db : DB) (qvec : List ℚ) (uid topK : Nat) (t : ℚ),
      searchRows db uid = [] → semanticSearch db qvec uid topK t = .ok []) ∧
    (∀ (db : DB) (qvec : List ℚ) (ws uid topK : Nat),
      workspaceRows db ws uid = [] → workspaceSemanticSearch db qvec ws uid topK = .ok []) ∧
    (∀ (db : DB) (pid uid topK : Nat),
      relatedRows db pid uid = [] → getRelatedPapers db pid uid topK = .ok []) := by
  refine ⟨?_, ?_, ?_⟩
  · intro db qvec uid topK t h
    simp [semanticSearch, h]
  · intro db qvec ws uid topK h
    simp [workspaceSemanticSearch, h]
  · intro db pid uid topK h
    simp only [getRelatedPapers]
    split
    · rfl
    · simp [h]

/-- C8 witness: on the empty database all three searches return `ok []`. -/
theorem claim_C8_witness :
    semanticSearch emptyDB [1] 1 10 0 = .ok [] ∧
    workspaceSemanticSearch emptyDB [1] 1 1 5 = .ok [] ∧
    getRelatedPapers emptyDB 1 1 5 = .ok [] :=
  ⟨claim_C8_empty_candidates.1 emptyDB [1] 1 10 0 (by decide),
   claim_C8_empty_candidates.2.1 emptyDB [1] 1 1 5 (by decide),
   claim_C8_empty_candidates.2.2 emptyDB 1 1 5 (by decide)⟩

/-! ## Claim C9 -/

/-- C9: when the source paper has no stored embedding row, the
related-papers operation returns the empty list (no error, no attempt to
embed any text — the function takes no embedder at all). -/
theorem claim_C9_no_source_embedding (db : DB) (pid uid topK : Nat)
    (h : db.embeddings.find? (fun e => e.paperId = pid) = none) :
    getRelatedPapers db pid uid topK = .ok [] := by
  simp [getRelatedPapers, h]

/-- C9 witness: a library with a paper but no embedding row. -/
theorem claim_C9_witness : getRelatedPapers wdbNoEmb 1 7 5 = .ok [] :=
  claim_C9_no_source_embedding wdbNoEmb 1 7 5 (by decide)

/-! ## Claim C5 -/

/-- C5: every result of the related-papers operation is owned by the
requesting user and is a paper other than the source paper — the source is
excluded by the candidate filter itself (`paper_id != source`), and the
query vector is the source's stored vector (`getRelatedPapers` takes no
embedder, so no text is re-embedded). -/
theorem claim_C5_related_excludes_source (db : DB) (pid uid topK : Nat)
    (res : List (Paper × ℚ)) (h : getRelatedPapers db pid uid topK = .ok res) :
    ∀ pr ∈ res, pr.1.id ≠ pid ∧ pr.1.ownerId = uid := by
  simp only [getRelatedPapers] at h
  split at h
  · rw [Except.ok.injEq] at h
    subst h
    intro pr hpr
    cases hpr
  · split at h
    · rw [Except.ok.injEq] at h
      subst h
      intro pr hpr
      cases hpr
    · intro pr hpr
      rcases rankCandidates_mem h pr hpr with ⟨r, hrmem, heq, _⟩
      have hrr : (r.1, r.2) ∈ relatedRows db pid uid := hrmem
      rcases mem_relatedRows hrr with ⟨h1, h2, h3⟩
      rw [heq]
      exact ⟨by rw [h1]; exact h3, h2⟩

/-- C5 witness: on a two-paper library, the papers related to paper 1 are
owned by user 7 and do not include paper 1. -/
theorem claim_C5_witness : paperB.id ≠ 1 ∧ paperB.ownerId = 7 :=
  claim_C5_related_excludes_source wdbRelated 1 7 5 [(paperB, 0)]
    (by with_unfolding_all decide) (paperB, 0) (by decide)

/-! ## Claim C1 -/

/-- C1, counterexample: `semantic_search`'s score cutoff defaults to `0.0`,
not negative infinity — for a user with exactly three owned-and-embedded
papers whose similarities to the query are all negative, the search with
default cutoff and `top_k = 5` returns no results instead of three. -/
theorem claim_C1_counterexample :
    (searchRows cdbNeg 7).length = 3 ∧
    semanticSearch cdbNeg [1] 7 5 = .ok [] := by
  with_unfolding_all decide

/-- C1, amended: the score cutoff defaults to `0.0`, so with the default
cutoff candidates scoring below zero are dropped; for every user with
exactly three owned-and-embedded papers whose (dimension-compatible)
candidate scores are all nonnegative, `semantic_search` with the default
cutoff and `top_k = 5` returns exactly three results. -/
theorem claim_C1_default_cutoff (db : DB) (qvec : List ℚ) (uid : Nat)
    (h3 : (searchRows db uid).length = 3)
    (hdim : ∀ r ∈ searchRows db uid, r.1.vector.length = qvec.length)
    (hpos : ∀ r ∈ searchRows db uid, 0 ≤ dot r.1.vector qvec) :
    ∃ res, semanticSearch db qvec uid 5 = .ok res ∧ res.length = 3 := by
  have hne : searchRows db uid ≠ [] := by
    intro hnil
    rw [hnil] at h3
    cases h3
  rcases @rankCandidates_full (searchRows db uid) qvec 5 0 hne hdim hpos
      (by rw [h3]; norm_num) with ⟨res, hok, hlen⟩
  refine ⟨res, ?_, by rw [hlen, h3]⟩
  simp only [semanticSearch]
  rw [if_neg (by simpa [List.isEmpty_iff] using hne)]
  exact hok

/-- C1 witness: three owned papers with nonnegative scores give exactly
three results under the default cutoff. -/
theorem claim_C1_witness :
    ∃ res, semanticSearch wdbPos [1] 7 5 = .ok res ∧ res.length = 3 :=
  claim_C1_default_cutoff wdbPos [1] 7 (by decide) (by decide)
    (by with_unfolding_all decide)

/-! ## Claim C2 -/

/-- C4: starting from a database satisfying the at-most-one-embedding-per-
paper invariant, any non-empty sequence of successful `create_embedding`
calls for a paper leaves exactly one embedding row for that paper, and
that row holds the vector produced by the last call together with the
current model identifier — the refresh overwrites in place, the first call
inserts. -/
theorem claim_C4_upsert_unique :
    ∀ (fs : List (String → Except String (List ℚ))) (db : DB) (p : Paper),
      db.embeddings.countP (fun e => e.paperId = p.id) ≤ 1 →
      (∀ f ∈ fs, ∃ v, f (paperToText p) = .ok v) →
      ∀ (flast : String → Except String (List ℚ)) (vlast : List ℚ),
        fs.getLast? = some flast → flast (paperToText p) = .ok vlast →
        ∃ db', createEmbeddingMany fs db p = .ok db' ∧
          db'.embeddings.countP (fun e => e.paperId = p.id) = 1 ∧
          db'.embeddings.find? (fun e => e.paperId = p.id) =
            some ⟨p.id, vlast, MODEL_NAME⟩ := by
  intro fs
  induction fs with
  | nil =>
    intro db p _ _ flast vlast hlastf _
    cases hlastf
  | cons f rest ih =>
    intro db p hinv hok flast vlast hlastf hlastv
    rcases hok f (List.mem_cons_self f rest) with ⟨v, hv⟩
    rcases createEmbedding_step hv hinv with ⟨db1, row, hstep, hcount1, hfind1⟩
    rw [createEmbeddingMany, hstep]
    cases rest with
    | nil =>
      have hfl : f = flast := by simpa using hlastf
      subst hfl
      have hveq : v = vlast := by
        rw [hv] at hlastv
        exact Except.ok.inj hlastv
      subst hveq
      exact ⟨db1, rfl, hcount1, hfind1⟩
    | cons g rest2 =>
      have hlast2 : (g :: rest2).getLast? = some flast := by
        rw [← hlastf, List.getLast?_cons_cons]
      exact ih db1 p (by omega) (fun f2 hf2 => hok f2 (List.mem_cons_of_mem f hf2))
        flast vlast hlast2 hlastv

/-- First embedder for the C4 witness. -/
def wEmbFirst : String → Except String (List ℚ) := fun _ => .ok [1]

/-- Second (latest) embedder for the C4 witness. -/
def wEmbLast : String → Except String (List ℚ) := fun _ => .ok [2]

/-- Paper used by the C4 witness. -/
def wPaperC4 : Paper := mkPaper 5 7 "w"

/-- C4 witness: two upserts on an empty database leave exactly one
embedding row holding the second vector. -/
theorem claim_C4_witness :
    ∃ db', createEmbeddingMany [wEmbFirst, wEmbLast] emptyDB wPaperC4 = .ok db' ∧
      db'.embeddings.countP (fun e => e.paperId = wPaperC4.id) = 1 ∧
      db'.embeddings.find? (fun e => e.paperId = wPaperC4.id) =
        some ⟨wPaperC4.id, [2], MODEL_NAME⟩ :=
  claim_C4_upsert_unique [wEmbFirst, wEmbLast] emptyDB wPaperC4 (by decide)
    (by
      intro f hf
      simp only [List.mem_cons, List.not_mem_nil, or_false] at hf
      rcases hf with rfl | rfl
      · exact ⟨[1], rfl⟩
      · exact ⟨[2], rfl⟩)
    wEmbLast [2] rfl rfl

/-! ## Claim C7 -/

/-- C7: on the paper-import route, an embedding failure is caught and
swallowed — for any embedder that fails, `import_paper` (without a
workspace link request) still succeeds, the returned paper is stored in
the papers table, and no embedding row is written. -/
theorem claim_C7_import_swallows (db : DB) (data : PaperImport) (uid : Nat) (msg : String)
    (hws : data.workspaceId = none) :
    ∃ db' p, importPaper (fun _ => .error msg) db data uid = .ok (db', p) ∧
      p ∈ db'.papers ∧ db'.embeddings = db.embeddings := by
  simp only [importPaper, hws]
  cases hdup : db.papers.find? (fun p =>
      p.externalId = data.externalId ∧ p.source = data.source ∧ p.ownerId = uid) with
  | some existing =>
    exact ⟨db, existing, rfl, List.mem_of_find?_eq_some hdup, rfl⟩
  | none =>
    refine ⟨_, _, rfl, ?_, rfl⟩
    simp [createEmbedding]

/-- Import request used by the C7 witness. -/
def wImportData : PaperImport :=
  { externalId := some "2401.0001", source := some "arxiv", title := "t",
    authors := ["x", "y"], abstract := none, workspaceId := none }

/-- C7 witness: importing into the empty database with an embedder that
always fails still succeeds and stores the paper. -/
theorem claim_C7_witness :
    ∃ db' p, importPaper (fun _ => .error "model failed to load") emptyDB wImportData 9 =
        .ok (db', p) ∧ p ∈ db'.papers ∧ db'.embeddings = emptyDB.embeddings :=
  claim_C7_import_swallows emptyDB wImportData 9 "model failed to load" rfl

end AcademiaX
